import Mathlib

/-!
# Verification of the onetapadd entry-lifecycle logic

Shallow embedding of `src/script.js`: the data model (CompletedEntry,
GivenEntry), the localStorage-backed store, the gesture handlers
(`handleAddEntry`, `handleTransfer`, `handleReset`, `handleButtonPress`,
`handleButtonRelease`), the list renderer, and a trace semantics over the
store, together with theorems settling the specification's claims.

Times and ids are JS integer millisecond timestamps, embedded as `Int`
(`Date.prototype.getTime` returns an integer number of milliseconds).
`toLocaleDateString` is a locale-dependent platform primitive; handlers
take it as an explicit function parameter `fmt : Int → String`.
-/

/-- A record of the Completed list: `{ id: now.getTime(), content: string }`
(`script.js` lines 150–153). -/
structure CompletedEntry where
  id : Int
  content : String
deriving Repr, DecidableEq

/-- A record of the Given list:
`{ completedOn: string, givenOn: string }` (`script.js` lines 185–188). -/
structure GivenEntry where
  completedOn : String
  givenOn : String
deriving Repr, DecidableEq

/-- The content of one localStorage slot, as observed by
`localStorage.getItem` followed by the load functions of `script.js`.
JSON.parse/JSON.stringify are platform primitives; since
`JSON.stringify` is deterministic on these records, a slot string is
classified by what it deserializes to:

* `absent`: `getItem` returns `null` (slot never written or cleared);
* `stored xs`: the slot holds the `JSON.stringify` serialization of the
  entry list `xs` (always a non-empty, hence truthy, string);
* `corrupt`: the slot holds a non-empty string that `JSON.parse`
  rejects (invalid serialized content — `JSON.parse` throws). -/
inductive SlotContent (α : Type)
  | absent
  | stored (xs : List α)
  | corrupt
deriving Repr, DecidableEq

/-- `JSON.parse` throwing on invalid serialized slot content. -/
inductive DeserializationError
  | parseFailed
deriving Repr, DecidableEq

/-- The persistent store: the two string-keyed localStorage slots
`completionEntries` and `givenEntries` (`script.js` lines 16–17). -/
structure Store where
  completedSlot : SlotContent CompletedEntry
  givenSlot : SlotContent GivenEntry
deriving Repr, DecidableEq

/-- The store at first use: neither slot has ever been written. -/
def Store.empty : Store := ⟨.absent, .absent⟩

/-- `loadCompletedEntries` (`script.js` lines 22–25):
`entriesJSON ? JSON.parse(entriesJSON) : []`. An absent slot yields `[]`;
a stored serialization deserializes to the stored list; invalid content
makes `JSON.parse` throw, aborting the calling gesture. -/
def loadCompletedEntries (st : Store) :
    Except DeserializationError (List CompletedEntry) :=
  match st.completedSlot with
  | .absent => .ok []
  | .stored xs => .ok xs
  | .corrupt => .error .parseFailed

/-- `saveCompletedEntries` (`script.js` lines 28–30): `setItem` fully
overwrites the slot with `JSON.stringify(entries)`. -/
def saveCompletedEntries (entries : List CompletedEntry) (st : Store) :
    Store :=
  { st with completedSlot := .stored entries }

/-- `loadGivenEntries` (`script.js` lines 33–36), same shape as
`loadCompletedEntries` on the `givenEntries` slot. -/
def loadGivenEntries (st : Store) :
    Except DeserializationError (List GivenEntry) :=
  match st.givenSlot with
  | .absent => .ok []
  | .stored xs => .ok xs
  | .corrupt => .error .parseFailed

/-- `saveGivenEntries` (`script.js` lines 39–41). -/
def saveGivenEntries (entries : List GivenEntry) (st : Store) : Store :=
  { st with givenSlot := .stored entries }

/-- The entry constructed by `handleAddEntry` (`script.js` lines 135–153):
`id = now.getTime()`, `content = "Completed on " + date` where `date` is
the locale-formatted date of `now`. -/
def makeCompletedEntry (fmt : Int → String) (now : Int) : CompletedEntry :=
  { id := now, content := "Completed on " ++ fmt now }

/-- The entry constructed by `handleTransfer` (`script.js` lines 181–188):
`completedOn` copied from the source entry's `content`,
`givenOn = "Given on: " + givenDate`. -/
def makeGivenEntry (fmt : Int → String) (source : CompletedEntry)
    (now : Int) : GivenEntry :=
  { completedOn := source.content, givenOn := "Given on: " ++ fmt now }

/-- Store effect of `handleAddEntry` (`script.js` lines 133–166): build
the new entry from the current time, load the Completed slot, `unshift`
the new entry onto the front, save. (The DOM prepend and tab-count
refresh read the same data and are modelled by the renderer below.) -/
def handleAddEntry (fmt : Int → String) (now : Int) (st : Store) :
    Except DeserializationError Store := do
  let newEntry := makeCompletedEntry fmt now
  let currentEntries ← loadCompletedEntries st
  pure (saveCompletedEntries (newEntry :: currentEntries) st)

/-- Store effect of `handleTransfer` (`script.js` lines 173–198): load
Completed, keep exactly the entries whose `id` differs from the clicked
entry's (`filter(entry => entry.id !== entryObject.id)`), save; then
build the GivenEntry from the clicked entry and the current time, load
Given, `unshift` it onto the front, save. The `.error` value signals
the escaped exception; the store the aborted gesture leaves behind
(a JS throw does not roll back earlier `setItem` calls) is
`transferStoreAfter` below. -/
def handleTransfer (fmt : Int → String) (now : Int)
    (entryObject : CompletedEntry) (st : Store) :
    Except DeserializationError Store := do
  let completedEntries ← loadCompletedEntries st
  let remaining := completedEntries.filter (fun entry => entry.id ≠ entryObject.id)
  let st1 := saveCompletedEntries remaining st
  let newGivenEntry := makeGivenEntry fmt entryObject now
  let givenEntries ← loadGivenEntries st1
  pure (saveGivenEntries (newGivenEntry :: givenEntries) st1)

/-- The persisted store once a `handleTransfer` gesture has finished or
aborted. A JS exception does not undo earlier `setItem` calls: the
source persists the filtered Completed list (`script.js` line 178)
before `loadGivenEntries` can throw (line 194), so an abort on a
corrupt `givenEntries` slot leaves that Completed-side write in place,
while a throw on a corrupt `completionEntries` slot (line 176) happens
before any write. -/
def transferStoreAfter (fmt : Int → String) (now : Int)
    (entryObject : CompletedEntry) (st : Store) : Store :=
  match loadCompletedEntries st with
  | .error _ => st
  | .ok completedEntries =>
    let st1 := saveCompletedEntries
      (completedEntries.filter (fun entry => entry.id ≠ entryObject.id)) st
    match loadGivenEntries st1 with
    | .error _ => st1
    | .ok givenEntries =>
      saveGivenEntries (makeGivenEntry fmt entryObject now :: givenEntries) st1

/-- Store effect of `handleReset` (`script.js` lines 245–259): if the
user confirms `window.confirm`, both slots are overwritten with `[]`;
on cancel nothing is written. -/
def handleResetStore (confirmed : Bool) (st : Store) : Store :=
  if confirmed then
    saveGivenEntries [] (saveCompletedEntries [] st)
  else
    st

/-- The pair of tab counts produced by `updateTabCounts`
(`script.js` lines 99–105): the lengths of the two loaded sequences. -/
def updateTabCounts (st : Store) :
    Except DeserializationError (Nat × Nat) := do
  let completedCount := (← loadCompletedEntries st).length
  let givenCount := (← loadGivenEntries st).length
  pure (completedCount, givenCount)

/-!
## View-controller state: reset arming and the long-press timer

`script.js` lines 230–269: module-level mutable state `pressTimer` (the
handle of the last `setTimeout`) and `isResetMode`, with
`enterResetMode`/`exitResetMode` flipping the flag (plus presentation-only
class and glyph changes), `handleButtonPress` scheduling `enterResetMode`
after 3000 ms, and `handleButtonRelease` cancelling that timer.
`setTimeout` is embedded as a list of active `(handle, deadline)` pairs
plus a fresh-handle counter; a callback whose deadline has been reached
fires before the next gesture's handler runs.
-/

/-- Transient view-controller state: the reset-armed flag, the set of
scheduled-but-unfired `enterResetMode` callbacks as `(handle, deadline)`
pairs, the next fresh timer handle, and the `pressTimer` variable
(`none` models its initial `undefined`). -/
structure Ctrl where
  isResetMode : Bool
  timers : List (Nat × Int)
  nextHandle : Nat
  pressTimer : Option Nat
deriving Repr, DecidableEq

/-- Controller state at startup (`script.js` lines 230–231):
`isResetMode = false`, `pressTimer` undefined, nothing scheduled. -/
def Ctrl.init : Ctrl := ⟨false, [], 0, none⟩

/-- `enterResetMode` (`script.js` lines 233–237): sets the flag (the
class/glyph changes are presentation only). -/
def enterResetMode (c : Ctrl) : Ctrl := { c with isResetMode := true }

/-- `exitResetMode` (`script.js` lines 239–243): clears the flag. -/
def exitResetMode (c : Ctrl) : Ctrl := { c with isResetMode := false }

/-- The event loop running every scheduled `enterResetMode` callback
whose deadline has been reached by time `t`, before the handler of a
gesture arriving at `t` runs. Fired timers are removed. -/
def fireDueTimers (t : Int) (c : Ctrl) : Ctrl :=
  let c1 := if c.timers.any (fun p => decide (p.2 ≤ t)) then enterResetMode c else c
  { c1 with timers := c1.timers.filter (fun p => decide (t < p.2)) }

/-- `handleButtonPress` (`script.js` lines 261–264) at time `t`:
`pressTimer = window.setTimeout(enterResetMode, 3000)` — schedule a
fresh timer with deadline `t + 3000` and remember its handle. A second
press overwrites `pressTimer` without cancelling the earlier timer,
exactly as the source does. -/
def handleButtonPress (t : Int) (c : Ctrl) : Ctrl :=
  { c with
    timers := c.timers ++ [(c.nextHandle, t + 3000)],
    pressTimer := some c.nextHandle,
    nextHandle := c.nextHandle + 1 }

/-- `handleButtonRelease` (`script.js` lines 266–269):
`clearTimeout(pressTimer)` — cancel the timer whose handle `pressTimer`
holds; a no-op when `pressTimer` is undefined or that timer already
fired or was already cleared. Registered for both `mouseup` and
`mouseleave`. -/
def handleButtonRelease (c : Ctrl) : Ctrl :=
  match c.pressTimer with
  | none => c
  | some h => { c with timers := c.timers.filter (fun p => p.1 != h) }

/-- A press or release/leave gesture on the add button. -/
inductive BtnEvent
  | press
  | release
deriving Repr, DecidableEq

/-- One event-loop turn for a timed button gesture: run due timer
callbacks, then the gesture's handler. -/
def ctrlStep (c : Ctrl) (ev : BtnEvent × Int) : Ctrl :=
  let c1 := fireDueTimers ev.2 c
  match ev.1 with
  | .press => handleButtonPress ev.2 c1
  | .release => handleButtonRelease c1

/-- Run a sequence of timed press/release gestures. -/
def ctrlRun (c : Ctrl) (evs : List (BtnEvent × Int)) : Ctrl :=
  evs.foldl ctrlStep c

/-- The spec's `Normal` state for the add button: not armed and no
arming timer pending. -/
def Ctrl.normal (c : Ctrl) : Prop := c.isResetMode = false ∧ c.timers = []

/-- Press/release gestures at the level of the whole application state.
Neither `handleButtonPress`, `handleButtonRelease`, nor the scheduled
`enterResetMode` callback reads or writes localStorage (`script.js`
lines 233–237 and 261–269), so the store component is untouched. -/
def appBtnStep (s : Store × Ctrl) (ev : BtnEvent × Int) : Store × Ctrl :=
  (s.1, ctrlStep s.2 ev)

/-- Run timed press/release gestures over application state. -/
def appBtnRun (s : Store × Ctrl) (evs : List (BtnEvent × Int)) :
    Store × Ctrl :=
  evs.foldl appBtnStep s

/-- `handleReset` (`script.js` lines 245–259) with the
`window.confirm` answer made explicit: on confirm, overwrite both slots
with `[]` (then re-render and refresh counts from the now-empty store);
on cancel, write nothing; in both cases `exitResetMode` runs. -/
def handleReset (confirmed : Bool) (st : Store) (c : Ctrl) :
    Store × Ctrl :=
  (handleResetStore confirmed st, exitResetMode c)

/-!
## The list renderer

`script.js` lines 110–128. A visible Completed row is fully determined
by its entry: the text span shows `entry.content` and the `⇄` affordance
closes over the entry itself; likewise a Given row shows the two fields
of its entry. The two `<ul>` contents are therefore embedded as lists of
the rendered entries, in DOM order.
-/

/-- The visible contents of the two list containers, top row first. -/
structure DomState where
  completionList : List CompletedEntry
  givenList : List GivenEntry
deriving Repr, DecidableEq

/-- `renderList` (`script.js` lines 110–128): clear both lists
(`innerHTML = ''`), then append a row per loaded Completed entry in
sequence order, then a row per loaded Given entry in sequence order. -/
def renderList (st : Store) (dom : DomState) :
    Except DeserializationError DomState := do
  let dom1 : DomState := { dom with completionList := [], givenList := [] }
  let completedEntries ← loadCompletedEntries st
  let dom2 : DomState := { dom1 with completionList := completedEntries }
  let givenEntries ← loadGivenEntries st
  pure { dom2 with givenList := givenEntries }

/-!
## Trace semantics over the store

The store-mutating gestures (add, row transfer, confirmed/cancelled
reset), so that reachable persisted states can be quantified over.
-/

/-- One store-mutating gesture. -/
inductive Op
  | add (now : Int)
  | transfer (entryObject : CompletedEntry) (now : Int)
  | reset (confirmed : Bool)
deriving Repr

/-- Dispatch one gesture to its handler's store effect. -/
def runOp (fmt : Int → String) (st : Store) : Op → Except DeserializationError Store
  | .add now => handleAddEntry fmt now st
  | .transfer e now => handleTransfer fmt now e st
  | .reset confirmed => .ok (handleResetStore confirmed st)

/-- Run a sequence of gestures from a store state. -/
def runOps (fmt : Int → String) : List Op → Store → Except DeserializationError Store
  | [], st => .ok st
  | op :: ops, st => do runOps fmt ops (← runOp fmt st op)

/-- The timestamps passed to the add gestures of a trace, in order. -/
def addTimes : List Op → List Int
  | [] => []
  | .add now :: ops => now :: addTimes ops
  | .transfer _ _ :: ops => addTimes ops
  | .reset _ :: ops => addTimes ops

/-!
## Basic store lemmas
-/

theorem loadCompleted_saveCompleted (xs : List CompletedEntry) (st : Store) :
    loadCompletedEntries (saveCompletedEntries xs st) = .ok xs := rfl

theorem loadGiven_saveCompleted (xs : List CompletedEntry) (st : Store) :
    loadGivenEntries (saveCompletedEntries xs st) = loadGivenEntries st := rfl

theorem loadCompleted_saveGiven (ys : List GivenEntry) (st : Store) :
    loadCompletedEntries (saveGivenEntries ys st) = loadCompletedEntries st := rfl

theorem loadGiven_saveGiven (ys : List GivenEntry) (st : Store) :
    loadGivenEntries (saveGivenEntries ys st) = .ok ys := rfl

/-- Computation lemma for `handleAddEntry` when the Completed slot loads. -/
theorem handleAddEntry_eq (fmt : Int → String) (now : Int) (st : Store)
    (xs : List CompletedEntry) (hc : loadCompletedEntries st = .ok xs) :
    handleAddEntry fmt now st =
      .ok (saveCompletedEntries (makeCompletedEntry fmt now :: xs) st) := by
  simp [handleAddEntry, hc]

/-- Computation lemma for `handleTransfer` when both slots load. -/
theorem handleTransfer_eq (fmt : Int → String) (now : Int)
    (e : CompletedEntry) (st : Store) (xs : List CompletedEntry)
    (ys : List GivenEntry)
    (hc : loadCompletedEntries st = .ok xs)
    (hg : loadGivenEntries st = .ok ys) :
    handleTransfer fmt now e st =
      .ok (saveGivenEntries (makeGivenEntry fmt e now ::  ys)
            (saveCompletedEntries (xs.filter fun x => x.id ≠ e.id) st)) := by
  have hg1 : loadGivenEntries
      (saveCompletedEntries (xs.filter fun x => x.id ≠ e.id) st) = .ok ys := by
    rw [loadGiven_saveCompleted, hg]
  simp only [decide_not] at hg1
  simp [handleTransfer, hc, hg1, decide_not, Bind.bind, Functor.map,
    Except.bind, Except.map, Pure.pure, Except.pure]

theorem handleAddEntry_error (fmt : Int → String) (now : Int) (st : Store)
    (h : loadCompletedEntries st = .error .parseFailed) :
    handleAddEntry fmt now st = .error .parseFailed := by
  simp [handleAddEntry, h, Bind.bind, Except.bind]

theorem handleTransfer_completed_error (fmt : Int → String) (now : Int)
    (e : CompletedEntry) (st : Store)
    (h : loadCompletedEntries st = .error .parseFailed) :
    handleTransfer fmt now e st = .error .parseFailed := by
  simp [handleTransfer, h, Bind.bind, Except.bind]

theorem handleTransfer_given_error (fmt : Int → String) (now : Int)
    (e : CompletedEntry) (st : Store) (xs : List CompletedEntry)
    (hc : loadCompletedEntries st = .ok xs)
    (h : loadGivenEntries st = .error .parseFailed) :
    handleTransfer fmt now e st = .error .parseFailed := by
  have h1 : loadGivenEntries
      (saveCompletedEntries (xs.filter fun x => x.id ≠ e.id) st) =
        .error .parseFailed := by
    rw [loadGiven_saveCompleted, h]
  simp only [decide_not] at h1
  simp [handleTransfer, hc, h1, decide_not, Bind.bind, Except.bind,
    Functor.map, Except.map]

/-- On a successful transfer the two accounts of the gesture agree: the
store `handleTransfer` returns is the store `transferStoreAfter` leaves
behind. -/
theorem transferStoreAfter_of_ok (fmt : Int → String) (now : Int)
    (e : CompletedEntry) (st st' : Store)
    (h : handleTransfer fmt now e st = .ok st') :
    transferStoreAfter fmt now e st = st' := by
  cases hc : loadCompletedEntries st with
  | error err =>
    cases err
    rw [handleTransfer_completed_error fmt now e st hc] at h
    exact Except.noConfusion h
  | ok xs =>
    cases hg : loadGivenEntries st with
    | error err =>
      cases err
      rw [handleTransfer_given_error fmt now e st xs hc hg] at h
      exact Except.noConfusion h
    | ok ys =>
      rw [handleTransfer_eq fmt now e st xs ys hc hg] at h
      cases h
      have hg1 : loadGivenEntries
          (saveCompletedEntries (xs.filter fun x => x.id ≠ e.id) st) =
            .ok ys := by
        rw [loadGiven_saveCompleted, hg]
      simp only [decide_not] at hg1
      simp [transferStoreAfter, hc, hg1, decide_not]

/-!
## Claims about transfer: C1, C2, C10
-/

/-- C1: for every persisted state and every CompletedEntry `e` present in
the persisted Completed sequence, after `transfer(e)` returns, no entry
with id equal to `e.id` remains in the persisted Completed sequence, the
persisted Given sequence is one element longer, and its first element has
`completedOn = e.content` and `givenOn = "Given on: " ++` the formatted
current date. -/
theorem transfer_removes_id_and_prepends_given
    (fmt : Int → String) (now : Int) (e : CompletedEntry) (st : Store)
    (xs : List CompletedEntry) (ys : List GivenEntry)
    (hc : loadCompletedEntries st = .ok xs)
    (hg : loadGivenEntries st = .ok ys)
    (_he : e ∈ xs) :
    ∃ st', handleTransfer fmt now e st = .ok st' ∧
      (∀ zs, loadCompletedEntries st' = .ok zs →
        e.id ∉ zs.map CompletedEntry.id) ∧
      ∃ gs, loadGivenEntries st' = .ok gs ∧
        gs.length = ys.length + 1 ∧
        ∃ g, gs.head? = some g ∧ g.completedOn = e.content ∧
          g.givenOn = "Given on: " ++ fmt now := by
  refine ⟨_, handleTransfer_eq fmt now e st xs ys hc hg, ?_, ?_⟩
  · intro zs hzs
    rw [loadCompleted_saveGiven, loadCompleted_saveCompleted] at hzs
    cases hzs
    simp only [List.mem_map, not_exists, not_and]
    rintro x hx
    rcases List.mem_filter.mp hx with ⟨-, hxid⟩
    exact fun hEq => absurd hEq (by simpa using hxid)
  · exact ⟨_, loadGiven_saveGiven _ _, by simp, _, rfl, rfl, rfl⟩

/-- Witness for C1 at a concrete store. -/
theorem transfer_removes_id_and_prepends_given_witness :
    ∃ st', handleTransfer (fun _ => "January 15, 2024") 7
        ⟨5, "Completed on January 10, 2024"⟩
        ⟨.stored [⟨5, "Completed on January 10, 2024"⟩], .stored []⟩ = .ok st' ∧
      (∀ zs, loadCompletedEntries st' = .ok zs →
        (⟨5, "Completed on January 10, 2024"⟩ : CompletedEntry).id ∉
          zs.map CompletedEntry.id) ∧
      ∃ gs, loadGivenEntries st' = .ok gs ∧
        gs.length = ([] : List GivenEntry).length + 1 ∧
        ∃ g, gs.head? = some g ∧
          g.completedOn =
            (⟨5, "Completed on January 10, 2024"⟩ : CompletedEntry).content ∧
          g.givenOn = "Given on: " ++ (fun _ : Int => "January 15, 2024") 7 :=
  transfer_removes_id_and_prepends_given (fun _ => "January 15, 2024") 7
    ⟨5, "Completed on January 10, 2024"⟩
    ⟨.stored [⟨5, "Completed on January 10, 2024"⟩], .stored []⟩
    [⟨5, "Completed on January 10, 2024"⟩] [] rfl rfl (by simp)

/-- C2: for every CompletedEntry `e` whose id does not occur in the
persisted Completed sequence, `transfer(e)` leaves the Completed sequence
unchanged (a silent no-op on that side) and still prepends the derived
GivenEntry to the Given sequence. -/
theorem transfer_missing_id_silent_noop
    (fmt : Int → String) (now : Int) (e : CompletedEntry) (st : Store)
    (xs : List CompletedEntry) (ys : List GivenEntry)
    (hc : loadCompletedEntries st = .ok xs)
    (hg : loadGivenEntries st = .ok ys)
    (he : e.id ∉ xs.map CompletedEntry.id) :
    ∃ st', handleTransfer fmt now e st = .ok st' ∧
      loadCompletedEntries st' = .ok xs ∧
      loadGivenEntries st' = .ok (makeGivenEntry fmt e now :: ys) := by
  refine ⟨_, handleTransfer_eq fmt now e st xs ys hc hg, ?_, loadGiven_saveGiven _ _⟩
  rw [loadCompleted_saveGiven, loadCompleted_saveCompleted]
  have : xs.filter (fun x => x.id ≠ e.id) = xs := by
    apply List.filter_eq_self.mpr
    intro a ha
    simp only [decide_eq_true_eq]
    exact fun hEq => he (List.mem_map.mpr ⟨a, ha, hEq⟩)
  rw [this]

/-- Witness for C2 at a concrete store whose single entry has a
different id. -/
theorem transfer_missing_id_silent_noop_witness :
    ∃ st', handleTransfer (fun _ => "March 2, 2025") 9 ⟨42, "gone"⟩
        ⟨.stored [⟨7, "other"⟩], .stored [⟨"old", "Given on: earlier"⟩]⟩ = .ok st' ∧
      loadCompletedEntries st' = .ok [⟨7, "other"⟩] ∧
      loadGivenEntries st' =
        .ok (makeGivenEntry (fun _ => "March 2, 2025") ⟨42, "gone"⟩ 9 ::
          [⟨"old", "Given on: earlier"⟩]) :=
  transfer_missing_id_silent_noop (fun _ => "March 2, 2025") 9 ⟨42, "gone"⟩
    ⟨.stored [⟨7, "other"⟩], .stored [⟨"old", "Given on: earlier"⟩]⟩
    [⟨7, "other"⟩] [⟨"old", "Given on: earlier"⟩] rfl rfl (by simp)

/-- C10: `transfer(e)` leaves every persisted CompletedEntry whose id
differs from `e.id` in place, preserving their relative order (the
remaining sequence is a sublist of the original consisting exactly of
the entries with a different id), and leaves every pre-existing
GivenEntry unchanged and in its original relative order after the single
prepended new entry. -/
theorem transfer_frame_effect
    (fmt : Int → String) (now : Int) (e : CompletedEntry) (st : Store)
    (xs : List CompletedEntry) (ys : List GivenEntry)
    (hc : loadCompletedEntries st = .ok xs)
    (hg : loadGivenEntries st = .ok ys) :
    ∃ st' zs gs, handleTransfer fmt now e st = .ok st' ∧
      loadCompletedEntries st' = .ok zs ∧
      List.Sublist zs xs ∧
      (∀ x ∈ xs, x.id ≠ e.id → x ∈ zs) ∧
      (∀ z ∈ zs, z ∈ xs ∧ z.id ≠ e.id) ∧
      loadGivenEntries st' = .ok gs ∧
      gs.head? = some (makeGivenEntry fmt e now) ∧
      gs.tail = ys := by
  refine ⟨_, xs.filter (fun x => x.id ≠ e.id), makeGivenEntry fmt e now :: ys,
    handleTransfer_eq fmt now e st xs ys hc hg, ?_, ?_, ?_, ?_, ?_, rfl, rfl⟩
  · rw [loadCompleted_saveGiven, loadCompleted_saveCompleted]
  · exact List.filter_sublist xs
  · intro x hx hxe
    exact List.mem_filter.mpr ⟨hx, by simpa using hxe⟩
  · intro z hz
    rcases List.mem_filter.mp hz with ⟨hz1, hz2⟩
    exact ⟨hz1, by simpa using hz2⟩
  · exact loadGiven_saveGiven _ _

/-- Witness for C10 at a concrete store with three Completed entries,
one of which shares the transferred entry's id. -/
theorem transfer_frame_effect_witness :
    ∃ st' zs gs, handleTransfer (fun _ => "May 5, 2025") 11 ⟨2, "b"⟩
        ⟨.stored [⟨1, "a"⟩, ⟨2, "b"⟩, ⟨3, "c"⟩],
         .stored [⟨"p", "q"⟩]⟩ = .ok st' ∧
      loadCompletedEntries st' = .ok zs ∧
      List.Sublist zs [⟨1, "a"⟩, ⟨2, "b"⟩, ⟨3, "c"⟩] ∧
      (∀ x ∈ [(⟨1, "a"⟩ : CompletedEntry), ⟨2, "b"⟩, ⟨3, "c"⟩],
        x.id ≠ (⟨2, "b"⟩ : CompletedEntry).id → x ∈ zs) ∧
      (∀ z ∈ zs, z ∈ [(⟨1, "a"⟩ : CompletedEntry), ⟨2, "b"⟩, ⟨3, "c"⟩] ∧
        z.id ≠ (⟨2, "b"⟩ : CompletedEntry).id) ∧
      loadGivenEntries st' = .ok gs ∧
      gs.head? = some (makeGivenEntry (fun _ => "May 5, 2025") ⟨2, "b"⟩ 11) ∧
      gs.tail = [(⟨"p", "q"⟩ : GivenEntry)] :=
  transfer_frame_effect (fun _ => "May 5, 2025") 11 ⟨2, "b"⟩
    ⟨.stored [⟨1, "a"⟩, ⟨2, "b"⟩, ⟨3, "c"⟩], .stored [⟨"p", "q"⟩]⟩
    [⟨1, "a"⟩, ⟨2, "b"⟩, ⟨3, "c"⟩] [⟨"p", "q"⟩] rfl rfl

/-!
## Claim about add: C3
-/

/-- C3: the add operation creates exactly one new CompletedEntry with
`id` equal to the integer timestamp of now and `content` equal to
"Completed on " followed by the formatted date of now, placed at index 0
of the persisted Completed sequence; adding at `t1` then `t2` with
`t1 < t2` yields the order `[entry(t2), entry(t1)]` in front of the
prior entries. -/
theorem add_prepends_timestamped_entry
    (fmt : Int → String) (t1 t2 : Int) (st : Store)
    (xs : List CompletedEntry)
    (hc : loadCompletedEntries st = .ok xs)
    (_hlt : t1 < t2) :
    ∃ st1 st2,
      handleAddEntry fmt t1 st = .ok st1 ∧
      loadCompletedEntries st1 = .ok (makeCompletedEntry fmt t1 :: xs) ∧
      handleAddEntry fmt t2 st1 = .ok st2 ∧
      loadCompletedEntries st2 =
        .ok (makeCompletedEntry fmt t2 :: makeCompletedEntry fmt t1 :: xs) ∧
      (makeCompletedEntry fmt t1).id = t1 ∧
      (makeCompletedEntry fmt t1).content = "Completed on " ++ fmt t1 ∧
      (makeCompletedEntry fmt t2).id = t2 ∧
      (makeCompletedEntry fmt t2).content = "Completed on " ++ fmt t2 := by
  refine ⟨_, _, handleAddEntry_eq fmt t1 st xs hc, loadCompleted_saveCompleted _ _,
    handleAddEntry_eq fmt t2 _ _ (loadCompleted_saveCompleted _ _),
    loadCompleted_saveCompleted _ _, rfl, rfl, rfl, rfl⟩

/-- Witness for C3: two adds at timestamps 100 and 200 from the empty
store. -/
theorem add_prepends_timestamped_entry_witness :
    ∃ st1 st2,
      handleAddEntry (fun _ => "October 26, 2023") 100 Store.empty = .ok st1 ∧
      loadCompletedEntries st1 =
        .ok (makeCompletedEntry (fun _ => "October 26, 2023") 100 :: []) ∧
      handleAddEntry (fun _ => "October 26, 2023") 200 st1 = .ok st2 ∧
      loadCompletedEntries st2 =
        .ok (makeCompletedEntry (fun _ => "October 26, 2023") 200 ::
          makeCompletedEntry (fun _ => "October 26, 2023") 100 :: []) ∧
      (makeCompletedEntry (fun _ => "October 26, 2023") 100).id = 100 ∧
      (makeCompletedEntry (fun _ => "October 26, 2023") 100).content =
        "Completed on " ++ (fun _ : Int => "October 26, 2023") 100 ∧
      (makeCompletedEntry (fun _ => "October 26, 2023") 200).id = 200 ∧
      (makeCompletedEntry (fun _ => "October 26, 2023") 200).content =
        "Completed on " ++ (fun _ : Int => "October 26, 2023") 200 :=
  add_prepends_timestamped_entry (fun _ => "October 26, 2023") 100 200
    Store.empty [] rfl (by decide)

/-!
## Claim about reset: C5
-/

/-- C5: with the controller armed, confirming the reset prompt empties
both persisted sequences (length 0 regardless of prior size); declining
leaves both persisted sequences and both tab counts exactly unchanged;
in either case the controller exits reset-armed mode. -/
theorem reset_confirm_clears_decline_unchanged
    (confirmed : Bool) (st : Store) (c : Ctrl)
    (_harmed : c.isResetMode = true) :
    (handleReset confirmed st c).2.isResetMode = false ∧
    (confirmed = true →
      loadCompletedEntries (handleReset confirmed st c).1 = .ok [] ∧
      loadGivenEntries (handleReset confirmed st c).1 = .ok []) ∧
    (confirmed = false →
      (handleReset confirmed st c).1 = st ∧
      updateTabCounts (handleReset confirmed st c).1 = updateTabCounts st) := by
  cases confirmed <;>
    simp [handleReset, handleResetStore, exitResetMode,
      loadCompleted_saveGiven, loadCompleted_saveCompleted,
      loadGiven_saveGiven]

/-- Witness for C5 with a non-empty concrete store and an armed
controller, confirmation given. -/
theorem reset_confirm_clears_decline_unchanged_witness :
    (handleReset true ⟨.stored [⟨1, "a"⟩], .stored [⟨"b", "c"⟩]⟩
        ⟨true, [], 0, none⟩).2.isResetMode = false ∧
    (true = true →
      loadCompletedEntries (handleReset true
        ⟨.stored [⟨1, "a"⟩], .stored [⟨"b", "c"⟩]⟩
        ⟨true, [], 0, none⟩).1 = .ok [] ∧
      loadGivenEntries (handleReset true
        ⟨.stored [⟨1, "a"⟩], .stored [⟨"b", "c"⟩]⟩
        ⟨true, [], 0, none⟩).1 = .ok []) ∧
    (true = false →
      (handleReset true ⟨.stored [⟨1, "a"⟩], .stored [⟨"b", "c"⟩]⟩
        ⟨true, [], 0, none⟩).1 =
        ⟨.stored [⟨1, "a"⟩], .stored [⟨"b", "c"⟩]⟩ ∧
      updateTabCounts (handleReset true
        ⟨.stored [⟨1, "a"⟩], .stored [⟨"b", "c"⟩]⟩ ⟨true, [], 0, none⟩).1 =
        updateTabCounts ⟨.stored [⟨1, "a"⟩], .stored [⟨"b", "c"⟩]⟩) :=
  reset_confirm_clears_decline_unchanged true
    ⟨.stored [⟨1, "a"⟩], .stored [⟨"b", "c"⟩]⟩ ⟨true, [], 0, none⟩ rfl

/-!
## Claims about loading: C6 (corrupt slot) and C7 (absent slot)

`loadCompletedEntries`/`loadGivenEntries` have no try/catch around
`JSON.parse` (`script.js` lines 22–25 and 33–36): invalid serialized
content makes the load throw, aborting the calling gesture; nothing in
the source degrades a corrupt slot to an empty sequence.
-/

/-- Counterexample to C6 as stated: with the `completionEntries` slot
holding invalid serialized content, load returns a `DeserializationError`
rather than the empty sequence, and the add gesture aborts with that
error instead of proceeding. -/
theorem load_corrupt_aborts_counterexample :
    loadCompletedEntries ⟨SlotContent.corrupt, SlotContent.absent⟩ =
      .error .parseFailed ∧
    loadCompletedEntries ⟨SlotContent.corrupt, SlotContent.absent⟩ ≠
      .ok [] ∧
    handleAddEntry (fun _ => "January 1, 2024") 0
      ⟨SlotContent.corrupt, SlotContent.absent⟩ = .error .parseFailed ∧
    handleTransfer (fun _ => "January 1, 2024") 0 ⟨5, "x"⟩
      ⟨SlotContent.corrupt, SlotContent.absent⟩ = .error .parseFailed := by
  refine ⟨rfl, ?_, rfl, rfl⟩
  intro h
  exact Except.noConfusion h

/-- C6 amended: when a storage slot contains data that is not valid
serialized content, load fails with a `DeserializationError` and the
gesture in progress aborts rather than degrading the slot to an empty
sequence. A write the gesture performed before the failing load
persists: with a corrupt Completed slot the throw precedes any write,
so add and transfer abort leaving the store as it was; with a corrupt
Given slot a transfer aborts only after persisting its Completed-side
removal, and an add persists its new entry and then aborts in the
tab-count refresh. Only an absent slot degrades to the empty
sequence. -/
theorem corrupt_slot_load_fails_and_gesture_aborts
    (fmt : Int → String) (now : Int) (e : CompletedEntry)
    (st st2 : Store) (xs : List CompletedEntry)
    (hc : st.completedSlot = SlotContent.corrupt)
    (hg2 : st2.givenSlot = SlotContent.corrupt)
    (hc2 : loadCompletedEntries st2 = .ok xs) :
    loadCompletedEntries st = .error .parseFailed ∧
    handleAddEntry fmt now st = .error .parseFailed ∧
    handleTransfer fmt now e st = .error .parseFailed ∧
    transferStoreAfter fmt now e st = st ∧
    loadGivenEntries st2 = .error .parseFailed ∧
    handleTransfer fmt now e st2 = .error .parseFailed ∧
    transferStoreAfter fmt now e st2 =
      saveCompletedEntries (xs.filter fun x => x.id ≠ e.id) st2 ∧
    handleAddEntry fmt now st2 =
      .ok (saveCompletedEntries (makeCompletedEntry fmt now :: xs) st2) ∧
    updateTabCounts
      (saveCompletedEntries (makeCompletedEntry fmt now :: xs) st2) =
      .error .parseFailed := by
  have h1 : loadCompletedEntries st = .error .parseFailed := by
    unfold loadCompletedEntries
    rw [hc]
  have h2 : loadGivenEntries st2 = .error .parseFailed := by
    unfold loadGivenEntries
    rw [hg2]
  have h3 : loadGivenEntries
      (saveCompletedEntries (xs.filter fun x => x.id ≠ e.id) st2) =
        .error .parseFailed := by
    rw [loadGiven_saveCompleted, h2]
  have h4 : loadGivenEntries
      (saveCompletedEntries (makeCompletedEntry fmt now :: xs) st2) =
        .error .parseFailed := by
    rw [loadGiven_saveCompleted, h2]
  refine ⟨h1, handleAddEntry_error fmt now st h1,
    handleTransfer_completed_error fmt now e st h1, ?_, h2,
    handleTransfer_given_error fmt now e st2 xs hc2 h2, ?_,
    handleAddEntry_eq fmt now st2 xs hc2, ?_⟩
  · simp [transferStoreAfter, h1]
  · simp only [decide_not] at h3
    simp [transferStoreAfter, hc2, h3, decide_not]
  · simp [updateTabCounts, loadCompleted_saveCompleted, h4,
      Bind.bind, Except.bind]

/-- Witness for the amended C6 at concrete corrupt stores: a corrupt
Completed slot beside a loadable Given slot, and a corrupt Given slot
beside a Completed slot holding one entry. -/
theorem corrupt_slot_load_fails_and_gesture_aborts_witness :
    loadCompletedEntries ⟨SlotContent.corrupt, SlotContent.stored []⟩ =
      .error .parseFailed ∧
    handleAddEntry (fun _ => "July 4, 2024") 3
      ⟨SlotContent.corrupt, SlotContent.stored []⟩ = .error .parseFailed ∧
    handleTransfer (fun _ => "July 4, 2024") 3 ⟨1, "y"⟩
      ⟨SlotContent.corrupt, SlotContent.stored []⟩ = .error .parseFailed ∧
    transferStoreAfter (fun _ => "July 4, 2024") 3 ⟨1, "y"⟩
      ⟨SlotContent.corrupt, SlotContent.stored []⟩ =
      ⟨SlotContent.corrupt, SlotContent.stored []⟩ ∧
    loadGivenEntries ⟨SlotContent.stored [⟨1, "y"⟩], SlotContent.corrupt⟩ =
      .error .parseFailed ∧
    handleTransfer (fun _ => "July 4, 2024") 3 ⟨1, "y"⟩
      ⟨SlotContent.stored [⟨1, "y"⟩], SlotContent.corrupt⟩ =
      .error .parseFailed ∧
    transferStoreAfter (fun _ => "July 4, 2024") 3 ⟨1, "y"⟩
      ⟨SlotContent.stored [⟨1, "y"⟩], SlotContent.corrupt⟩ =
      saveCompletedEntries
        ([⟨1, "y"⟩].filter fun x => x.id ≠ (⟨1, "y"⟩ : CompletedEntry).id)
        ⟨SlotContent.stored [⟨1, "y"⟩], SlotContent.corrupt⟩ ∧
    handleAddEntry (fun _ => "July 4, 2024") 3
      ⟨SlotContent.stored [⟨1, "y"⟩], SlotContent.corrupt⟩ =
      .ok (saveCompletedEntries
        (makeCompletedEntry (fun _ => "July 4, 2024") 3 :: [⟨1, "y"⟩])
        ⟨SlotContent.stored [⟨1, "y"⟩], SlotContent.corrupt⟩) ∧
    updateTabCounts (saveCompletedEntries
        (makeCompletedEntry (fun _ => "July 4, 2024") 3 :: [⟨1, "y"⟩])
        ⟨SlotContent.stored [⟨1, "y"⟩], SlotContent.corrupt⟩) =
      .error .parseFailed :=
  corrupt_slot_load_fails_and_gesture_aborts (fun _ => "July 4, 2024") 3
    ⟨1, "y"⟩ ⟨SlotContent.corrupt, SlotContent.stored []⟩
    ⟨SlotContent.stored [⟨1, "y"⟩], SlotContent.corrupt⟩ [⟨1, "y"⟩]
    rfl rfl rfl

/-- C7: whenever a storage slot is absent (never written or cleared),
the corresponding load returns the empty sequence rather than an
error. -/
theorem load_absent_yields_empty
    (st st2 : Store)
    (hc : st.completedSlot = SlotContent.absent)
    (hg : st2.givenSlot = SlotContent.absent) :
    loadCompletedEntries st = .ok [] ∧ loadGivenEntries st2 = .ok [] := by
  constructor
  · unfold loadCompletedEntries
    rw [hc]
  · unfold loadGivenEntries
    rw [hg]

/-- Witness for C7 at the initial store. -/
theorem load_absent_yields_empty_witness :
    loadCompletedEntries Store.empty = .ok [] ∧
    loadGivenEntries Store.empty = .ok [] :=
  load_absent_yields_empty Store.empty Store.empty rfl rfl

/-!
## Claim about the long-press state machine: C8
-/

/-- C8: starting from the Normal state, a press at `t0` followed by a
release (or the pointer leaving the button) at `t1` strictly before
3000 ms elapse returns the controller to the Normal state — pressing
never arms immediately, the timer does not fire before `t1`, and the
release cancels it — with the persisted store untouched. -/
theorem early_release_stays_normal
    (st : Store) (c : Ctrl) (t0 t1 : Int)
    (hn : c.normal) (h01 : t0 ≤ t1) (hlt : t1 < t0 + 3000) :
    (ctrlStep c (BtnEvent.press, t0)).isResetMode = false ∧
    (appBtnRun (st, c)
      [(BtnEvent.press, t0), (BtnEvent.release, t1)]).1 = st ∧
    (appBtnRun (st, c)
      [(BtnEvent.press, t0), (BtnEvent.release, t1)]).2.normal := by
  obtain ⟨hm, ht⟩ := hn
  have hfire : ¬ (t0 + 3000 ≤ t1) := by omega
  have hkeep : t1 < t0 + 3000 := hlt
  refine ⟨?_, ?_, ?_, ?_⟩
  · simp [ctrlStep, fireDueTimers, handleButtonPress, enterResetMode, hm, ht]
  · rfl
  · simp [appBtnRun, appBtnStep, ctrlRun, ctrlStep, fireDueTimers,
      handleButtonPress, handleButtonRelease, enterResetMode, hm, ht,
      hfire, hkeep]
  · simp [appBtnRun, appBtnStep, ctrlRun, ctrlStep, fireDueTimers,
      handleButtonPress, handleButtonRelease, enterResetMode, Ctrl.normal,
      hm, ht, hfire, hkeep]

/-- Witness for C8: press at 0, release at 2999 ms from the startup
controller state. -/
theorem early_release_stays_normal_witness :
    (ctrlStep Ctrl.init (BtnEvent.press, 0)).isResetMode = false ∧
    (appBtnRun (Store.empty, Ctrl.init)
      [(BtnEvent.press, 0), (BtnEvent.release, 2999)]).1 = Store.empty ∧
    (appBtnRun (Store.empty, Ctrl.init)
      [(BtnEvent.press, 0), (BtnEvent.release, 2999)]).2.normal :=
  early_release_stays_normal Store.empty Ctrl.init 0 2999
    ⟨rfl, rfl⟩ (by decide) (by decide)

/-!
## Claim about the renderer: C9
-/

/-- C9: `renderList` is idempotent — rendering the same persisted
sequences twice in a row leaves exactly the visible rows (same count,
same order, same text and affordances) that rendering them once
produces, whatever content the lists held before. -/
theorem renderList_idempotent (st : Store) (dom : DomState) :
    (renderList st dom >>= fun d1 => renderList st d1) = renderList st dom := by
  obtain ⟨cs, gs⟩ := st
  cases cs <;> cases gs <;> rfl

/-!
## Claim about id uniqueness: C4

`handleAddEntry` uses the wall-clock timestamp as the id with no
collision defence (`script.js` line 151), so two adds sharing a
timestamp put two entries with equal ids into the Completed sequence:
the uniqueness invariant holds only for traces whose add timestamps are
pairwise distinct.
-/

theorem runOps_nil (fmt : Int → String) (st : Store) :
    runOps fmt [] st = .ok st := rfl

theorem runOps_cons (fmt : Int → String) (op : Op) (ops : List Op)
    (st : Store) :
    runOps fmt (op :: ops) st = (runOp fmt st op).bind (runOps fmt ops) :=
  rfl

/-- One step of the uniqueness invariant: ids are duplicate-free and
drawn from outside the add timestamps still to come. -/
theorem runOps_preserves_nodup (fmt : Int → String) :
    ∀ (ops : List Op) (st st' : Store),
      runOps fmt ops st = .ok st' →
      (addTimes ops).Nodup →
      (∀ xs, loadCompletedEntries st = .ok xs →
        (xs.map CompletedEntry.id).Nodup ∧
        ∀ i ∈ xs.map CompletedEntry.id, i ∉ addTimes ops) →
      ∀ xs, loadCompletedEntries st' = .ok xs →
        (xs.map CompletedEntry.id).Nodup := by
  intro ops
  induction ops with
  | nil =>
    intro st st' hrun hnd hinv xs hload
    rw [runOps_nil] at hrun
    cases hrun
    exact (hinv xs hload).1
  | cons op ops ih =>
    intro st st' hrun hnd hinv xs hload
    rw [runOps_cons] at hrun
    cases op with
    | add now =>
      simp only [runOp] at hrun
      cases hc : loadCompletedEntries st with
      | error err =>
        cases err
        rw [handleAddEntry_error fmt now st hc] at hrun
        simp only [Except.bind] at hrun
        exact Except.noConfusion hrun
      | ok ys =>
        rw [handleAddEntry_eq fmt now st ys hc] at hrun
        simp only [Except.bind] at hrun
        obtain ⟨hids, hdisj⟩ := hinv ys hc
        have hnds : (addTimes ops).Nodup := (List.nodup_cons.mp hnd).2
        have hnowfresh : now ∉ addTimes ops := (List.nodup_cons.mp hnd).1
        refine ih _ st' hrun hnds ?_ xs hload
        intro zs hzs
        rw [loadCompleted_saveCompleted] at hzs
        cases hzs
        constructor
        · refine List.nodup_cons.mpr ⟨?_, hids⟩
          intro hmem
          exact hdisj _ hmem (by simp [addTimes, makeCompletedEntry])
        · intro i hi
          simp only [List.map_cons, List.mem_cons] at hi
          rcases hi with hi | hi
          · simpa [makeCompletedEntry, hi] using hnowfresh
          · intro hbad
            exact hdisj i hi (by simp [addTimes, hbad])
    | transfer e tnow =>
      simp only [runOp] at hrun
      cases hc : loadCompletedEntries st with
      | error err =>
        cases err
        rw [handleTransfer_completed_error fmt tnow e st hc] at hrun
        simp only [Except.bind] at hrun
        exact Except.noConfusion hrun
      | ok ys =>
        cases hg : loadGivenEntries st with
        | error err =>
          cases err
          rw [handleTransfer_given_error fmt tnow e st ys hc hg] at hrun
          simp only [Except.bind] at hrun
          exact Except.noConfusion hrun
        | ok gs =>
          rw [handleTransfer_eq fmt tnow e st ys gs hc hg] at hrun
          simp only [Except.bind] at hrun
          obtain ⟨hids, hdisj⟩ := hinv ys hc
          refine ih _ st' hrun (by simpa [addTimes] using hnd) ?_ xs hload
          intro zs hzs
          rw [loadCompleted_saveGiven, loadCompleted_saveCompleted] at hzs
          cases hzs
          have hsub : List.Sublist
              ((ys.filter fun x => x.id ≠ e.id).map CompletedEntry.id)
              (ys.map CompletedEntry.id) :=
            List.Sublist.map CompletedEntry.id (List.filter_sublist ys)
          refine ⟨hids.sublist hsub, ?_⟩
          intro i hi
          have : i ∈ ys.map CompletedEntry.id := hsub.mem hi
          simpa [addTimes] using hdisj i this
    | reset confirmed =>
      simp only [runOp, Except.bind] at hrun
      cases confirmed with
      | true =>
        refine ih _ st' hrun (by simpa [addTimes] using hnd) ?_ xs hload
        intro zs hzs
        simp [handleResetStore] at hzs
        rw [loadCompleted_saveGiven, loadCompleted_saveCompleted] at hzs
        cases hzs
        simp
      | false =>
        refine ih _ st' hrun (by simpa [addTimes] using hnd) ?_ xs hload
        intro zs hzs
        simp [handleResetStore] at hzs
        obtain ⟨hids, hdisj⟩ := hinv zs (by simpa using hzs)
        refine ⟨hids, ?_⟩
        intro i hi
        simpa [addTimes] using hdisj i hi

/-- Counterexample to C4 as stated: from the empty store, two add
gestures sharing the timestamp 5 (the storage-granularity collision the
design does not defend against) reach a persisted state whose Completed
sequence carries the id 5 twice. -/
theorem duplicate_add_breaks_id_uniqueness_counterexample :
    runOps (fun _ => "January 1, 2024") [Op.add 5, Op.add 5] Store.empty =
      .ok ⟨.stored [⟨5, "Completed on January 1, 2024"⟩,
                    ⟨5, "Completed on January 1, 2024"⟩], .absent⟩ ∧
    ¬ (([⟨5, "Completed on January 1, 2024"⟩,
         ⟨5, "Completed on January 1, 2024"⟩] :
        List CompletedEntry).map CompletedEntry.id).Nodup := by
  refine ⟨rfl, ?_⟩
  decide

/-- C4 amended: for every reachable persisted state whose trace of add
gestures uses pairwise distinct timestamps (the source's sole id
supply), the id field is unique among all CompletedEntry records
currently in the Completed sequence. -/
theorem reachable_ids_unique_of_distinct_add_times
    (fmt : Int → String) (ops : List Op) (st : Store)
    (hrun : runOps fmt ops Store.empty = .ok st)
    (hnd : (addTimes ops).Nodup) :
    ∀ xs, loadCompletedEntries st = .ok xs →
      (xs.map CompletedEntry.id).Nodup := by
  refine runOps_preserves_nodup fmt ops Store.empty st hrun hnd ?_
  intro xs hload
  have hxs : xs = [] := by
    have h0 : loadCompletedEntries Store.empty =
        .ok ([] : List CompletedEntry) := rfl
    rw [h0] at hload
    cases hload
    rfl
  subst hxs
  exact ⟨List.nodup_nil, by intro i hi; cases hi⟩

/-- Witness for the amended C4 on a concrete trace: two adds at distinct
timestamps, a transfer removing id 1, and a declined reset. -/
theorem reachable_ids_unique_of_distinct_add_times_witness :
    runOps (fun _ => "June 1, 2024")
        [Op.add 1, Op.add 2, Op.transfer ⟨1, "c"⟩ 5, Op.reset false]
        Store.empty =
      .ok ⟨.stored [⟨2, "Completed on June 1, 2024"⟩],
           .stored [⟨"c", "Given on: June 1, 2024"⟩]⟩ ∧
    (([(⟨2, "Completed on June 1, 2024"⟩ : CompletedEntry)]).map
        CompletedEntry.id).Nodup := by
  have h := reachable_ids_unique_of_distinct_add_times
    (fun _ => "June 1, 2024")
    [Op.add 1, Op.add 2, Op.transfer ⟨1, "c"⟩ 5, Op.reset false]
    ⟨.stored [⟨2, "Completed on June 1, 2024"⟩],
     .stored [⟨"c", "Given on: June 1, 2024"⟩]⟩
    rfl (by decide)
  exact ⟨rfl, h _ rfl⟩
